import Mathlib

/-
Verification of `oauth_server.py` (skyspoofer-trial-bot).

Shallow embedding of the module: the Replit key-value store `db` is split by
key prefix into its three disjoint keyspaces (`state:*`, `user:*`, `key:*`),
each modelled as an association list with Python-dict semantics; the
in-memory `ip_requests` map is an association list from address to timestamp
list; timestamps are integers (seconds); outbound HTTP calls are oracles
supplied as inputs (`Except` for a raised transport exception, an `ok` flag
for the HTTP status consulted by `raise_for_status`).  The handler also
emits the ordered list of staff-notification titles and the ordered trace of
store operations it performs, so that temporal claims can be stated.
-/

/-! ## Association-list model of a dict (unique keys) -/

def lookupA {α : Type} (k : String) : List (String × α) → Option α
  | [] => none
  | p :: rest => if p.1 == k then some p.2 else lookupA k rest

def setA {α : Type} (k : String) (v : α) : List (String × α) → List (String × α)
  | [] => [(k, v)]
  | p :: rest => if p.1 == k then (k, v) :: rest else p :: setA k v rest

/-- `del d[k]`: afterwards the key is absent (dict keys are unique). -/
def eraseA {α : Type} (k : String) (l : List (String × α)) : List (String × α) :=
  l.filter (fun p => !(p.1 == k))

/-- Read-modify-write `rec = d[k]; …; d[k] = rec` (the key is present at
every call site in the source; on an absent key Python would raise). -/
def updateA {α : Type} (k : String) (f : α → α) : List (String × α) → List (String × α)
  | [] => []
  | p :: rest => if p.1 == k then (p.1, f p.2) :: rest else p :: updateA k f rest

/-! ## Rate limiter (`record_ip`, lines 20–33) -/

def RATE_LIMIT : Nat := 5
def RATE_PERIOD : Int := 60

/-- Line 30: `[t for t in lst if (now - t).total_seconds() < RATE_PERIOD]`. -/
def pruneWindow (now : Int) (lst : List Int) : List Int :=
  lst.filter (fun t => now - t < RATE_PERIOD)

structure RateResult where
  newList : List Int
  exceeded : Bool
deriving DecidableEq, Repr

/-- Lines 25–33.  `exceeded = true` means the limit was exceeded. -/
def record_ip (now : Int) (lst : List Int) : RateResult :=
  { newList := pruneWindow now lst ++ [now],
    exceeded := decide ((pruneWindow now lst ++ [now]).length > RATE_LIMIT) }

/-- The per-address window left after a sequence of admission checks at the
given call times, starting from the empty window. -/
def windowAfter (ts : List Int) : List Int :=
  ts.foldl (fun l t => (record_ip t l).newList) []

/-! ## Python `k.split("key:")` on char lists (line 137) -/

/-- The separator `"key:"` as a char list. -/
def SEP : List Char := ['k', 'e', 'y', ':']

/-- Python `str.split("key:")`: split on non-overlapping occurrences of the
separator, scanning left to right. -/
def splitKey : List Char → List (List Char)
  | 'k' :: 'e' :: 'y' :: ':' :: rest => [] :: splitKey rest
  | c :: cs =>
    match splitKey cs with
    | [] => [[c]]
    | h :: t => (c :: h) :: t
  | [] => [[]]

/-- Line 137: `key_str = k.split("key:")[1]` (the index is in range for
every key the guard on line 136 lets through). -/
def key_str_of (k : String) : String :=
  String.mk ((splitKey k.data).getD 1 [])

/-- Line 136: `k.startswith("key:")`. -/
def startsKey (k : String) : Bool :=
  SEP.isPrefixOf k.data

/-- Specification-side reading of "the portion of `s` strictly before the
first occurrence of the substring `key:`" (all of `s` if there is none). -/
def beforeSep : List Char → List Char
  | 'k' :: 'e' :: 'y' :: ':' :: _ => []
  | c :: cs => c :: beforeSep cs
  | [] => []

/-- Specification-side reading of "`s` contains the substring `key:`". -/
def containsSep : List Char → Bool
  | 'k' :: 'e' :: 'y' :: ':' :: _ => true
  | _ :: cs => containsSep cs
  | [] => false

/-! ## Data model -/

/-- The `user:{discord_id}` record (lines 78–82, optional fields are added
by later writes on lines 116 and 144–145). -/
structure UserRec where
  discord_id : String
  email : Option String
  first_linked_at : Int
  dispensed_key : Option String
  last_dispensed_at : Option Int
deriving DecidableEq, Repr

/-- The persistent store, split by key prefix: `state:{token} ↦ user_id`,
`user:{id} ↦ UserRec`, and the pool, the list of full `key:*` store keys in
scan order.  (The three prefixes are disjoint, so scanning the whole store
for keys starting with `"key:"`, as line 135 does, is scanning `pool`.) -/
structure DB where
  states : List (String × String)
  users : List (String × UserRec)
  pool : List String
deriving DecidableEq, Repr

structure ServerState where
  ipRequests : List (String × List Int)
  db : DB
deriving DecidableEq, Repr

/-- `ip_requests.get(ip, [])` (line 28). -/
def windowOf (l : List (String × List Int)) (ip : String) : List Int :=
  (lookupA ip l).getD []

/-- The inbound request: client address and the two query parameters. -/
structure Req where
  ip : String
  code : Option String
  state : Option String
deriving DecidableEq, Repr

/-- Python truthiness test `if not code or not state` (line 48): an absent
or empty parameter counts as missing. -/
def missingParam : Option String → Bool
  | none => true
  | some s => s.isEmpty

/-- Response of the token-exchange POST (lines 89–102). -/
structure TokenResp where
  ok : Bool
  access_token : String
deriving DecidableEq, Repr

/-- Response of the profile GET (lines 104–110). -/
structure UserResp where
  ok : Bool
  email : Option String
deriving DecidableEq, Repr

/-- Response of the DM-channel-open POST (lines 151–160). -/
structure DmResp where
  ok : Bool
  channel_id : String
deriving DecidableEq, Repr

/-- Response of the message-send POST (lines 186–193); its status is never
consulted by the source. -/
structure SendResp where
  ok : Bool
deriving DecidableEq, Repr

/-- Oracle for one request: the current time and the outcome each outbound
HTTP call would have.  `Except.error` models a raised transport/parse
exception; an `ok = false` response is what `raise_for_status` rejects. -/
structure Env where
  now : Int
  tokenResp : Except String TokenResp
  userResp : Except String UserResp
  dmResp : Except String DmResp
  sendResp : Except String SendResp

def isErr {α : Type} : Except String α → Bool
  | .error _ => true
  | .ok _ => false

/-- Lines 89–112 (the body of the `try` up to the email check): exchange
the code, fetch the profile, and require a truthy email; any raise inside
collapses to `.error`, exactly the classes caught on line 126. -/
def exchange (env : Env) : Except String String :=
  match env.tokenResp with
  | .error e => .error e
  | .ok t =>
    if !t.ok then .error "token status" else
    match env.userResp with
    | .error e => .error e
    | .ok u =>
      if !u.ok then .error "user status" else
      match u.email with
      | none => .error "Email scope missing"
      | some s => if s.isEmpty then .error "Email scope missing" else .ok s

/-- Lines 149–200: whether the delivery `try` block raises.  The DM-open
call raises on transport error or (via `raise_for_status`, line 159) on a
non-success status; the send call (lines 186–193) raises only on transport
error — its status is never checked. -/
def deliveryFailed (env : Env) : Bool :=
  match env.dmResp with
  | .error _ => true
  | .ok d =>
    if !d.ok then true
    else
      match env.sendResp with
      | .error _ => true
      | .ok _ => false

/-! ## Handler -/

inductive DbEvent where
  | containsState (tok : String)
  | readState (tok : String)
  | containsUser (id : String)
  | writeUser (id : String)
  | deleteState (tok : String)
  | readUser (id : String)
  | deletePool (k : String)
deriving DecidableEq, Repr

def isStateEvent : DbEvent → Bool
  | .containsState _ => true
  | .readState _ => true
  | .deleteState _ => true
  | _ => false

def isDeletePool : DbEvent → Bool
  | .deletePool _ => true
  | _ => false

inductive HandlerResult where
  | httpError (status : Nat) (msg : String)
  | redirect (url : String)
deriving DecidableEq, Repr

/-- What one handler invocation produced besides the new server state:
notification titles, store-operation trace, HTTP outcome, in order. -/
structure COut where
  notes : List String
  events : List DbEvent
  result : HandlerResult
deriving DecidableEq, Repr

structure PhaseOut where
  db : DB
  notes : List String
  events : List DbEvent
deriving DecidableEq, Repr

/-- Lines 70–82: recognize an existing account (audit only) or create the
fresh record with a `None` email placeholder and `first_linked_at = now`. -/
def linkOrRecognize (uid : String) (now : Int) (db : DB) : PhaseOut :=
  match lookupA uid db.users with
  | some _ =>
    { db := db, notes := ["Duplicate OAuth Attempt"], events := [.containsUser uid] }
  | none =>
    { db := { db with users := setA uid ⟨uid, none, now, none, none⟩ db.users },
      notes := [],
      events := [.containsUser uid, .writeUser uid] }

/-- Lines 134–209: take the first store entry whose key starts with
`"key:"`; delete it, annotate the user record, attempt delivery (failures
audited, never fatal), audit the dispense, and stop after one item. -/
def dispense (uid : String) (env : Env) (db : DB) : PhaseOut :=
  match db.pool.find? startsKey with
  | none => { db := db, notes := [], events := [] }
  | some k =>
    { db := { db with
        pool := db.pool.filter (fun x => !(x == k)),
        users := updateA uid
          (fun r => { r with dispensed_key := some (key_str_of k),
                             last_dispensed_at := some env.now }) db.users },
      notes := (if deliveryFailed env then ["DM Delivery Failed"] else []) ++
               ["Key Dispensed"],
      events := [.deletePool k, .readUser uid, .writeUser uid] }

/-- Lines 65–211, after the state token was found and resolved to an
identity: link-or-recognize, purge the state, run the identity exchange,
and on success update the email, dispense, and redirect. -/
def afterFound (tok uid : String) (env : Env) (db : DB) : DB × COut :=
  let lr := linkOrRecognize uid env.now db
  let db2 : DB := { lr.db with states := eraseA tok lr.db.states }
  let ev2 := [.containsState tok, .readState tok] ++ lr.events ++ [.deleteState tok]
  match exchange env with
  | .error _ =>
    (db2, ⟨lr.notes ++ ["Bot Error"], ev2, .httpError 500 "OAuth failure"⟩)
  | .ok email =>
    let db3 : DB :=
      { db2 with users := updateA uid (fun r => { r with email := some email }) db2.users }
    let dp := dispense uid env db3
    (dp.db,
     ⟨lr.notes ++ ["Discord Linked"] ++ dp.notes,
      ev2 ++ [.readUser uid, .writeUser uid] ++ dp.events,
      .redirect "https://skyspoofer.com"⟩)

/-- Lines 35–211: the `/oauth/callback` handler. -/
def oauth_callback (req : Req) (env : Env) (st : ServerState) : ServerState × COut :=
  let w := record_ip env.now (windowOf st.ipRequests req.ip)
  let ipr := setA req.ip w.newList st.ipRequests
  if w.exceeded then
    (⟨ipr, st.db⟩,
     ⟨["Rate Limit Exceeded"], [], .httpError 429 "Too many requests"⟩)
  else if missingParam req.code || missingParam req.state then
    (⟨ipr, st.db⟩,
     ⟨["Invalid OAuth State"], [], .httpError 400 "Missing code or state"⟩)
  else
    let tok := req.state.getD ""
    match lookupA tok st.db.states with
    | none =>
      (⟨ipr, st.db⟩,
       ⟨["Invalid OAuth State"], [.containsState tok], .httpError 400 "Invalid state"⟩)
    | some uid =>
      let fo := afterFound tok uid env st.db
      (⟨ipr, fo.1⟩, fo.2)

/-- A sequence of callback requests folded over the server state. -/
def runCallbacks (st : ServerState) (l : List (Req × Env)) : ServerState :=
  l.foldl (fun s p => (oauth_callback p.1 p.2 s).1) st

/-- The store state that line 117 has produced on the success path: state
token purged, account resolved, email written. -/
def dbAfterEmail (tok uid email : String) (now : Int) (db : DB) : DB :=
  { states := eraseA tok db.states,
    users := updateA uid (fun r => { r with email := some email })
      (linkOrRecognize uid now db).db.users,
    pool := db.pool }

/-! ## Concrete scenarios used as counterexamples and witnesses -/

/-- All four outbound calls succeed; the profile email is `"e"`. -/
def envOK : Env := ⟨0, .ok ⟨true, "t"⟩, .ok ⟨true, some "e"⟩, .ok ⟨true, "ch"⟩, .ok ⟨true⟩⟩

/-- The token POST raises a transport error. -/
def envTokErr : Env := ⟨0, .error "connection error", .ok ⟨true, some "e"⟩, .ok ⟨true, "ch"⟩, .ok ⟨true⟩⟩

/-- Delivery: the message-send POST returns a non-success status (no
`raise_for_status` guards it in the source). -/
def envSendNotOk : Env := ⟨0, .ok ⟨true, "t"⟩, .ok ⟨true, some "e"⟩, .ok ⟨true, "ch"⟩, .ok ⟨false⟩⟩

/-- Delivery: the DM-open POST raises a transport error. -/
def envDmErr : Env := ⟨0, .ok ⟨true, "t"⟩, .ok ⟨true, some "e"⟩, .error "dm down", .ok ⟨true⟩⟩

def req1 : Req := ⟨"9.9.9.9", some "c1", some "s1"⟩
def req2 : Req := ⟨"9.9.9.9", some "c2", some "s2"⟩

/-- Two pending states for the same identity and a two-key pool. -/
def stTwo : ServerState := ⟨[], ⟨[("s1", "u1"), ("s2", "u1")], [], ["key:A", "key:B"]⟩⟩

/-- One pending state, fresh identity, one pool key. -/
def stOne : ServerState := ⟨[], ⟨[("s1", "u1")], [], ["key:A"]⟩⟩

/-- One pending state, fresh identity, empty pool. -/
def stNoPool : ServerState := ⟨[], ⟨[("s1", "u1")], [], []⟩⟩

/-- A store whose only pending state is a different token. -/
def stOther : ServerState :=
  ⟨[], ⟨[("sX", "u1")], [("u1", ⟨"u1", some "m", 5, none, none⟩)], ["key:A"]⟩⟩

/-- An already-linked identity with `first_linked_at = 42`. -/
def stLinked : ServerState :=
  ⟨[], ⟨[("s1", "u1")], [("u1", ⟨"u1", some "m", 42, none, none⟩)], []⟩⟩

/-- A pool key whose suffix itself contains `"key:"`. -/
def stNested : ServerState := ⟨[], ⟨[("s1", "u1")], [], ["key:Akey:B"]⟩⟩

/-! ## Helper lemmas: association lists -/

theorem lookupA_setA_self {α : Type} (k : String) (v : α) (l : List (String × α)) :
    lookupA k (setA k v l) = some v := by
  induction l with
  | nil => simp [setA, lookupA]
  | cons p rest ih =>
    by_cases h : p.1 = k
    · simp [setA, lookupA, h]
    · simp only [setA, lookupA, beq_iff_eq, h, if_false]
      exact ih

theorem lookupA_setA_ne {α : Type} (k k' : String) (v : α) (l : List (String × α))
    (h : k ≠ k') : lookupA k (setA k' v l) = lookupA k l := by
  induction l with
  | nil => simp [setA, lookupA, beq_iff_eq, Ne.symm h]
  | cons p rest ih =>
    by_cases hp : p.1 = k'
    · simp [setA, lookupA, hp, beq_iff_eq, Ne.symm h]
    · simp only [setA, lookupA, beq_iff_eq, hp, if_false]
      by_cases hk : p.1 = k
      · simp [hk]
      · simp [hk, ih]

theorem lookupA_updateA_self {α : Type} (k : String) (f : α → α) (l : List (String × α)) :
    lookupA k (updateA k f l) = (lookupA k l).map f := by
  induction l with
  | nil => simp [updateA, lookupA]
  | cons p rest ih =>
    by_cases h : p.1 = k
    · simp [updateA, lookupA, h]
    · simp only [updateA, lookupA, beq_iff_eq, h, if_false]
      exact ih

theorem lookupA_updateA_ne {α : Type} (k k' : String) (f : α → α) (l : List (String × α))
    (h : k ≠ k') : lookupA k (updateA k' f l) = lookupA k l := by
  induction l with
  | nil => simp [updateA, lookupA]
  | cons p rest ih =>
    by_cases hp : p.1 = k'
    · simp [updateA, lookupA, hp, beq_iff_eq, Ne.symm h]
    · simp only [updateA, lookupA, beq_iff_eq, hp, if_false]
      by_cases hk : p.1 = k
      · simp [hk]
      · simp [hk, ih]

theorem lookupA_eraseA_self {α : Type} (k : String) (l : List (String × α)) :
    lookupA k (eraseA k l) = none := by
  induction l with
  | nil => simp [eraseA, lookupA]
  | cons p rest ih =>
    by_cases h : p.1 = k
    · simpa [eraseA, lookupA, h] using ih
    · simpa [eraseA, lookupA, h] using ih

/-! ## Helper lemmas: rate limiter -/

theorem pruneWindow_eq_self (now : Int) (lst : List Int)
    (h : ∀ t ∈ lst, now - t < RATE_PERIOD) : pruneWindow now lst = lst :=
  List.filter_eq_self.mpr fun t ht => decide_eq_true (h t ht)

theorem windowAfter_append_singleton (l : List Int) (a : Int) :
    windowAfter (l ++ [a]) = (record_ip a (windowAfter l)).newList := by
  simp [windowAfter, List.foldl_append]

/-- A burst whose timestamps are pairwise closer than the window duration
is never pruned: the stored window is the full call list. -/
theorem windowAfter_eq_self (ts : List Int)
    (h : ∀ a ∈ ts, ∀ b ∈ ts, b - a < RATE_PERIOD) : windowAfter ts = ts := by
  induction ts using List.reverseRecOn with
  | nil => rfl
  | append_singleton l a ih =>
    have hl : ∀ x ∈ l, ∀ y ∈ l, y - x < RATE_PERIOD := fun x hx y hy =>
      h x (by simp [hx]) y (by simp [hy])
    rw [windowAfter_append_singleton, ih hl, record_ip]
    simp only
    rw [pruneWindow_eq_self a l fun t ht => h t (by simp [ht]) a (by simp)]

/-! ## Helper lemmas: `splitKey` versus the substring reading -/

theorem splitKey_ne_nil (l : List Char) : splitKey l ≠ [] := by
  induction l using splitKey.induct with
  | case1 rest ih => simp [splitKey]
  | case2 c cs hne hnil ih => simp_all [splitKey]
  | case3 c cs hne h t heq ih => simp_all [splitKey]
  | case4 => simp [splitKey]

theorem splitKey_head (l : List Char) : ∃ t, splitKey l = beforeSep l :: t := by
  induction l using splitKey.induct with
  | case1 rest ih => exact ⟨splitKey rest, by simp [splitKey, beforeSep]⟩
  | case2 c cs hne hnil ih => exact absurd hnil (splitKey_ne_nil cs)
  | case3 c cs hne h t heq ih =>
    obtain ⟨t2, ht2⟩ := ih
    rw [heq] at ht2
    obtain ⟨hh, -⟩ := List.cons_eq_cons.mp ht2
    refine ⟨t, ?_⟩
    rw [splitKey.eq_2 c cs hne, heq, beforeSep.eq_2 c cs hne, hh]
  | case4 => exact ⟨[], by simp [splitKey, beforeSep]⟩

theorem beforeSep_eq_self_iff (l : List Char) :
    beforeSep l = l ↔ containsSep l = false := by
  induction l using beforeSep.induct with
  | case1 rest =>
    constructor
    · intro h; cases h
    · intro h; rw [containsSep] at h; cases h
  | case2 c cs hne ih =>
    rw [beforeSep.eq_2 c cs hne, containsSep.eq_2 c cs hne]
    simpa using ih
  | case3 => simp [beforeSep, containsSep]

/-- What line 137 extracts from a pool key `"key:" ++ s`: the part of `s`
strictly before the first occurrence of `"key:"` inside `s`. -/
theorem key_str_of_sep_append (s : String) :
    key_str_of ("key:" ++ s) = String.mk (beforeSep s.data) := by
  have hd : ("key:" ++ s).data = 'k' :: 'e' :: 'y' :: ':' :: s.data := rfl
  obtain ⟨t, ht⟩ := splitKey_head s.data
  rw [key_str_of, hd, splitKey.eq_1, ht]
  simp [List.getD]

theorem mk_beforeSep_eq_iff (s : String) :
    String.mk (beforeSep s.data) = s ↔ containsSep s.data = false := by
  rw [← beforeSep_eq_self_iff]
  constructor
  · intro h
    have h2 := congrArg String.data h
    simpa using h2
  · intro h
    rw [h]

/-! ## Helper lemmas: handler phases -/

theorem linkOrRecognize_states (uid : String) (now : Int) (db : DB) :
    (linkOrRecognize uid now db).db.states = db.states := by
  rw [linkOrRecognize]
  cases lookupA uid db.users <;> simp

theorem linkOrRecognize_pool (uid : String) (now : Int) (db : DB) :
    (linkOrRecognize uid now db).db.pool = db.pool := by
  rw [linkOrRecognize]
  cases lookupA uid db.users <;> simp

theorem linkOrRecognize_fresh (uid : String) (now : Int) (db : DB)
    (h : lookupA uid db.users = none) :
    linkOrRecognize uid now db =
      ⟨{ db with users := setA uid ⟨uid, none, now, none, none⟩ db.users },
       [], [.containsUser uid, .writeUser uid]⟩ := by
  rw [linkOrRecognize, h]

theorem linkOrRecognize_dup (uid : String) (now : Int) (db : DB) (r : UserRec)
    (h : lookupA uid db.users = some r) :
    linkOrRecognize uid now db = ⟨db, ["Duplicate OAuth Attempt"], [.containsUser uid]⟩ := by
  rw [linkOrRecognize, h]

theorem dispense_none (uid : String) (env : Env) (db : DB)
    (h : db.pool.find? startsKey = none) :
    dispense uid env db = ⟨db, [], []⟩ := by
  rw [dispense, h]

theorem dispense_some (uid : String) (env : Env) (db : DB) (k : String)
    (h : db.pool.find? startsKey = some k) :
    dispense uid env db =
      ⟨{ db with
          pool := db.pool.filter (fun x => !(x == k)),
          users := updateA uid
            (fun r => { r with dispensed_key := some (key_str_of k),
                               last_dispensed_at := some env.now }) db.users },
        (if deliveryFailed env then ["DM Delivery Failed"] else []) ++ ["Key Dispensed"],
        [.deletePool k, .readUser uid, .writeUser uid]⟩ := by
  rw [dispense, h]

theorem afterFound_error (tok uid : String) (env : Env) (db : DB) (e : String)
    (hfail : exchange env = .error e) :
    afterFound tok uid env db =
      (⟨eraseA tok db.states, (linkOrRecognize uid env.now db).db.users, db.pool⟩,
       ⟨(linkOrRecognize uid env.now db).notes ++ ["Bot Error"],
        [.containsState tok, .readState tok] ++ (linkOrRecognize uid env.now db).events ++
          [.deleteState tok],
        .httpError 500 "OAuth failure"⟩) := by
  rw [afterFound]
  simp only [hfail, linkOrRecognize_states, linkOrRecognize_pool]

theorem afterFound_ok (tok uid : String) (env : Env) (db : DB) (email : String)
    (hok : exchange env = .ok email) :
    afterFound tok uid env db =
      ((dispense uid env (dbAfterEmail tok uid email env.now db)).db,
       ⟨(linkOrRecognize uid env.now db).notes ++ ["Discord Linked"] ++
          (dispense uid env (dbAfterEmail tok uid email env.now db)).notes,
        [.containsState tok, .readState tok] ++ (linkOrRecognize uid env.now db).events ++
          [.deleteState tok] ++ [.readUser uid, .writeUser uid] ++
          (dispense uid env (dbAfterEmail tok uid email env.now db)).events,
        .redirect "https://skyspoofer.com"⟩) := by
  rw [afterFound]
  simp only [hok, dbAfterEmail, linkOrRecognize_states, linkOrRecognize_pool,
    List.append_assoc]

theorem oauth_callback_found (req : Req) (env : Env) (st : ServerState) (tok uid : String)
    (hrl : (record_ip env.now (windowOf st.ipRequests req.ip)).exceeded = false)
    (hc : missingParam req.code = false)
    (hs : missingParam req.state = false)
    (htok : req.state = some tok)
    (hfound : lookupA tok st.db.states = some uid) :
    oauth_callback req env st =
      (⟨setA req.ip (record_ip env.now (windowOf st.ipRequests req.ip)).newList
          st.ipRequests,
        (afterFound tok uid env st.db).1⟩,
       (afterFound tok uid env st.db).2) := by
  have hs2 : missingParam (some tok) = false := htok ▸ hs
  rw [oauth_callback]
  simp only [hrl, hc, htok, hs2, Option.getD_some, hfound, Bool.or_self,
    Bool.false_eq_true, if_false]

theorem oauth_callback_nostate (req : Req) (env : Env) (st : ServerState) (tok : String)
    (hrl : (record_ip env.now (windowOf st.ipRequests req.ip)).exceeded = false)
    (hc : missingParam req.code = false)
    (hs : missingParam req.state = false)
    (htok : req.state = some tok)
    (hmiss : lookupA tok st.db.states = none) :
    oauth_callback req env st =
      (⟨setA req.ip (record_ip env.now (windowOf st.ipRequests req.ip)).newList
          st.ipRequests,
        st.db⟩,
       ⟨["Invalid OAuth State"], [.containsState tok], .httpError 400 "Invalid state"⟩) := by
  have hs2 : missingParam (some tok) = false := htok ▸ hs
  rw [oauth_callback]
  simp only [hrl, hc, htok, hs2, Option.getD_some, hmiss, Bool.or_self,
    Bool.false_eq_true, if_false]

theorem dispense_db_states (uid : String) (env : Env) (db : DB) :
    (dispense uid env db).db.states = db.states := by
  rw [dispense]
  cases db.pool.find? startsKey <;> simp

theorem oauth_callback_limited (req : Req) (env : Env) (st : ServerState)
    (hrl : (record_ip env.now (windowOf st.ipRequests req.ip)).exceeded = true) :
    oauth_callback req env st =
      (⟨setA req.ip (record_ip env.now (windowOf st.ipRequests req.ip)).newList
          st.ipRequests,
        st.db⟩,
       ⟨["Rate Limit Exceeded"], [], .httpError 429 "Too many requests"⟩) := by
  rw [oauth_callback]
  simp only [hrl, if_true]

theorem oauth_callback_missing (req : Req) (env : Env) (st : ServerState)
    (hrl : (record_ip env.now (windowOf st.ipRequests req.ip)).exceeded = false)
    (hmp : (missingParam req.code || missingParam req.state) = true) :
    oauth_callback req env st =
      (⟨setA req.ip (record_ip env.now (windowOf st.ipRequests req.ip)).newList
          st.ipRequests,
        st.db⟩,
       ⟨["Invalid OAuth State"], [], .httpError 400 "Missing code or state"⟩) := by
  rw [oauth_callback]
  simp only [hrl, hmp, Bool.false_eq_true, if_false, if_true]

theorem missingParam_false_eq (o : Option String) (h : missingParam o = false) :
    o = some (o.getD "") := by
  cases o <;> simp_all [missingParam]

theorem record_ip_exceeded_iff (now : Int) (lst : List Int) :
    (record_ip now lst).exceeded = false ↔
      (record_ip now lst).newList.length ≤ RATE_LIMIT := by
  rw [record_ip]
  simp [decide_eq_false_iff_not]

/-! ## Claims -/

/-- C3: an admission check is admitted (not `exceeded`) iff, after pruning
the trailing window and appending the current call, the address has at most
`RATE_LIMIT` timestamps; the check stores that list regardless of the
outcome; and in a burst whose calls all fall within one window duration of
each other, the k-th check (0-based) is admitted iff `k + 1 ≤ RATE_LIMIT`,
so a burst exactly at the limit is admitted, the next call is rejected, and
every later call within the window stays rejected while also being
recorded. -/
theorem c3_rate_limit_admission (ts : List Int)
    (hw : ∀ a ∈ ts, ∀ b ∈ ts, b - a < RATE_PERIOD) (k : Nat) (hk : k < ts.length) :
    (∀ now lst, ((record_ip now lst).exceeded = false ↔
        (pruneWindow now lst ++ [now]).length ≤ RATE_LIMIT)
      ∧ (record_ip now lst).newList = pruneWindow now lst ++ [now])
    ∧ ((record_ip (ts.get ⟨k, hk⟩) (windowAfter (ts.take k))).exceeded = false ↔
        k + 1 ≤ RATE_LIMIT)
    ∧ (record_ip (ts.get ⟨k, hk⟩) (windowAfter (ts.take k))).newList = ts.take (k + 1) := by
  have htake : windowAfter (ts.take k) = ts.take k :=
    windowAfter_eq_self _ fun a ha b hb =>
      hw a (List.take_subset k ts ha) b (List.take_subset k ts hb)
  have hmem : ts.get ⟨k, hk⟩ ∈ ts := ts.get_mem _ _
  have hprune : pruneWindow (ts.get ⟨k, hk⟩) (ts.take k) = ts.take k :=
    pruneWindow_eq_self _ _ fun t ht => hw t (List.take_subset k ts ht) _ hmem
  have hnew : (record_ip (ts.get ⟨k, hk⟩) (windowAfter (ts.take k))).newList
      = ts.take (k + 1) := by
    rw [record_ip]
    simp only
    rw [htake, hprune, List.take_succ, List.getElem?_eq_getElem hk]
    simp [List.get_eq_getElem]
  have hlen : (ts.take (k + 1)).length = k + 1 := by
    rw [List.length_take]
    omega
  refine ⟨fun now lst => ⟨?_, rfl⟩, ?_, hnew⟩
  · rw [record_ip]
    simp [decide_eq_false_iff_not]
  · rw [record_ip_exceeded_iff, hnew, hlen]

/-- C3 witness: seven calls at times 0..6 from one address; the burst's 7th
check (k = 6) is rejected (7 ≤ 5 fails) and still recorded in full. -/
theorem c3_rate_limit_admission_witness :
    ((record_ip (([0, 1, 2, 3, 4, 5, 6] : List Int).get ⟨6, by decide⟩)
        (windowAfter (([0, 1, 2, 3, 4, 5, 6] : List Int).take 6))).exceeded = false ↔
      6 + 1 ≤ RATE_LIMIT)
    ∧ (record_ip (([0, 1, 2, 3, 4, 5, 6] : List Int).get ⟨6, by decide⟩)
        (windowAfter (([0, 1, 2, 3, 4, 5, 6] : List Int).take 6))).newList
      = ([0, 1, 2, 3, 4, 5, 6] : List Int).take (6 + 1) :=
  (c3_rate_limit_admission [0, 1, 2, 3, 4, 5, 6] (by decide) 6 (by decide)).2

/-- C5 counterexample: seven admission checks at times 0..6 from one
address; at the 7th check, the list immediately after pruning and
appending — the one the limit comparison is made on — has length 7,
exceeding `RATE_LIMIT + 1 = 6`.  (Rejected calls are recorded too and the
list is never truncated, so it grows without bound inside the window.) -/
theorem c5_counterexample :
    (record_ip 6 (windowAfter ([0, 1, 2, 3, 4, 5] : List Int))).newList.length = 7
    ∧ RATE_LIMIT + 1 < 7 := by
  decide

/-- C5 amended: the per-address list after pruning and appending has length
exactly one more than the number of surviving (in-window) stored
timestamps, hence at most one more than the previously stored list — it is
bounded by the number of recorded calls, not by `RATE_LIMIT + 1`. -/
theorem c5_amended_window_length (now : Int) (lst : List Int) :
    (record_ip now lst).newList.length = (pruneWindow now lst).length + 1
    ∧ (record_ip now lst).newList.length ≤ lst.length + 1 := by
  refine ⟨by simp [record_ip], ?_⟩
  have h := List.length_filter_le (fun t => decide (now - t < RATE_PERIOD)) lst
  simp only [record_ip, List.length_append, List.length_singleton, pruneWindow]
  omega

/-- C7: a callback whose state token is not in the store returns 400
"Invalid state" and leaves the persistent store untouched — no state entry,
account record, or pool item is created, modified, or deleted; the only
store operation in its trace is the rejected membership test. -/
theorem c7_invalid_state_no_mutation (req : Req) (env : Env) (st : ServerState) (tok : String)
    (hrl : (record_ip env.now (windowOf st.ipRequests req.ip)).exceeded = false)
    (hc : missingParam req.code = false)
    (hs : missingParam req.state = false)
    (htok : req.state = some tok)
    (hmiss : lookupA tok st.db.states = none) :
    (oauth_callback req env st).1.db = st.db
    ∧ (oauth_callback req env st).2.result = .httpError 400 "Invalid state"
    ∧ (oauth_callback req env st).2.notes = ["Invalid OAuth State"]
    ∧ (oauth_callback req env st).2.events = [.containsState tok] := by
  rw [oauth_callback_nostate req env st tok hrl hc hs htok hmiss]
  exact ⟨rfl, rfl, rfl, rfl⟩

/-- C7 witness: a store holding a different pending state, an account and a
pool key is returned unchanged by a callback with an unknown token. -/
theorem c7_invalid_state_no_mutation_witness :
    (oauth_callback req1 envOK stOther).1.db = stOther.db
    ∧ (oauth_callback req1 envOK stOther).2.result = .httpError 400 "Invalid state" := by
  have h := c7_invalid_state_no_mutation req1 envOK stOther "s1" (by decide) (by decide)
    (by decide) rfl (by decide)
  exact ⟨h.1, h.2.1⟩

/-- C6: whenever the identity exchange fails — transport error or rejected
status on either request, or a missing/empty profile email — the handler
emits exactly one "Bot Error" notification and stops with HTTP 500; the
store keeps whatever the account-resolution step produced: the state token
is consumed, the pool is untouched, a newly created account still has no
email and no dispensed key, and a pre-existing account is unchanged. -/
theorem c6_exchange_failure (req : Req) (env : Env) (st : ServerState) (tok uid : String)
    (hrl : (record_ip env.now (windowOf st.ipRequests req.ip)).exceeded = false)
    (hc : missingParam req.code = false)
    (hs : missingParam req.state = false)
    (htok : req.state = some tok)
    (hfound : lookupA tok st.db.states = some uid)
    (hfail : isErr (exchange env) = true) :
    (oauth_callback req env st).2.result = .httpError 500 "OAuth failure"
    ∧ (oauth_callback req env st).2.notes.count "Bot Error" = 1
    ∧ (oauth_callback req env st).1.db.pool = st.db.pool
    ∧ (oauth_callback req env st).1.db.states = eraseA tok st.db.states
    ∧ (lookupA uid st.db.users = none →
        lookupA uid (oauth_callback req env st).1.db.users
          = some ⟨uid, none, env.now, none, none⟩)
    ∧ (∀ r, lookupA uid st.db.users = some r →
        (oauth_callback req env st).1.db.users = st.db.users) := by
  obtain ⟨e, he⟩ : ∃ e, exchange env = .error e := by
    cases hx : exchange env
    · exact ⟨_, rfl⟩
    · rw [hx] at hfail
      simp [isErr] at hfail
  rw [oauth_callback_found req env st tok uid hrl hc hs htok hfound,
      afterFound_error tok uid env st.db e he]
  refine ⟨rfl, ?_, rfl, rfl, ?_, ?_⟩
  · cases hu : lookupA uid st.db.users with
    | none =>
      rw [linkOrRecognize_fresh uid env.now st.db hu]
      simp [List.count_cons]
    | some r =>
      rw [linkOrRecognize_dup uid env.now st.db r hu]
      simp [List.count_cons]
  · intro hfr
    rw [linkOrRecognize_fresh uid env.now st.db hfr]
    simp [lookupA_setA_self]
  · intro r hr
    rw [linkOrRecognize_dup uid env.now st.db r hr]

/-- C6 witness: a fresh identity, a token-request transport error: HTTP
500, one "Bot Error" notification, account created with no email. -/
theorem c6_exchange_failure_witness :
    (oauth_callback req1 envTokErr stOne).2.result = .httpError 500 "OAuth failure"
    ∧ (oauth_callback req1 envTokErr stOne).2.notes.count "Bot Error" = 1
    ∧ lookupA "u1" (oauth_callback req1 envTokErr stOne).1.db.users
        = some ⟨"u1", none, 0, none, none⟩ := by
  have h := c6_exchange_failure req1 envTokErr stOne "s1" "u1" (by decide) (by decide)
    (by decide) rfl (by decide) (by decide)
  exact ⟨h.1, h.2.1, h.2.2.2.2.1 (by decide)⟩

/-- C9: on a successful link of a fresh identity, if the pool holds no
`key:*` entry the dispense step is skipped silently — pool untouched,
account linked with its email set and no key fields, no extra notification,
redirect still returned; if a first matching pool entry exists, exactly
that entry is removed and recorded on the account. -/
theorem c9_dispense_or_skip (req : Req) (env : Env) (st : ServerState) (tok uid email : String)
    (hrl : (record_ip env.now (windowOf st.ipRequests req.ip)).exceeded = false)
    (hc : missingParam req.code = false)
    (hs : missingParam req.state = false)
    (htok : req.state = some tok)
    (hfound : lookupA tok st.db.states = some uid)
    (hok : exchange env = .ok email)
    (hfresh : lookupA uid st.db.users = none) :
    (st.db.pool.find? startsKey = none →
       (oauth_callback req env st).1.db.pool = st.db.pool
       ∧ lookupA uid (oauth_callback req env st).1.db.users
           = some ⟨uid, some email, env.now, none, none⟩
       ∧ (oauth_callback req env st).2.notes = ["Discord Linked"]
       ∧ (oauth_callback req env st).2.result = .redirect "https://skyspoofer.com")
    ∧ (∀ k, st.db.pool.find? startsKey = some k →
       (oauth_callback req env st).1.db.pool = st.db.pool.filter (fun x => !(x == k))
       ∧ lookupA uid (oauth_callback req env st).1.db.users
           = some ⟨uid, some email, env.now, some (key_str_of k), some env.now⟩
       ∧ (oauth_callback req env st).2.result = .redirect "https://skyspoofer.com") := by
  rw [oauth_callback_found req env st tok uid hrl hc hs htok hfound,
      afterFound_ok tok uid env st.db email hok]
  constructor
  · intro hnone
    have hfind : (dbAfterEmail tok uid email env.now st.db).pool.find? startsKey = none := hnone
    rw [dispense_none _ _ _ hfind]
    refine ⟨rfl, ?_, ?_, rfl⟩
    · show lookupA uid (dbAfterEmail tok uid email env.now st.db).users = _
      rw [dbAfterEmail]
      simp only
      rw [linkOrRecognize_fresh uid env.now st.db hfresh]
      simp only
      rw [lookupA_updateA_self, lookupA_setA_self]
      rfl
    · rw [linkOrRecognize_fresh uid env.now st.db hfresh]
      rfl
  · intro k hfindk
    have hfind : (dbAfterEmail tok uid email env.now st.db).pool.find? startsKey = some k :=
      hfindk
    rw [dispense_some _ _ _ k hfind]
    refine ⟨rfl, ?_, rfl⟩
    show lookupA uid (updateA uid _ (dbAfterEmail tok uid email env.now st.db).users) = _
    rw [lookupA_updateA_self, dbAfterEmail]
    simp only
    rw [linkOrRecognize_fresh uid env.now st.db hfresh]
    simp only
    rw [lookupA_updateA_self, lookupA_setA_self]
    rfl

/-- C9 witness: valid link, empty pool: account linked with email "e", no
key fields set, redirect returned, pool still empty. -/
theorem c9_dispense_or_skip_witness :
    (oauth_callback req1 envOK stNoPool).1.db.pool = stNoPool.db.pool
    ∧ lookupA "u1" (oauth_callback req1 envOK stNoPool).1.db.users
        = some ⟨"u1", some "e", 0, none, none⟩
    ∧ (oauth_callback req1 envOK stNoPool).2.result = .redirect "https://skyspoofer.com" := by
  have h := (c9_dispense_or_skip req1 envOK stNoPool "s1" "u1" "e" (by decide) (by decide)
    (by decide) rfl (by decide) rfl (by decide)).1 (by decide)
  exact ⟨h.1, h.2.1, h.2.2.2⟩

/-- Success path with a nonempty pool, for any (fresh or re-linking)
identity: the first matching pool entry is deleted and recorded. -/
theorem success_dispense (req : Req) (env : Env) (st : ServerState) (tok uid email k : String)
    (hrl : (record_ip env.now (windowOf st.ipRequests req.ip)).exceeded = false)
    (hc : missingParam req.code = false)
    (hs : missingParam req.state = false)
    (htok : req.state = some tok)
    (hfound : lookupA tok st.db.states = some uid)
    (hok : exchange env = .ok email)
    (hfind : st.db.pool.find? startsKey = some k) :
    (oauth_callback req env st).1.db.pool = st.db.pool.filter (fun x => !(x == k))
    ∧ (lookupA uid (oauth_callback req env st).1.db.users).map UserRec.dispensed_key
        = some (some (key_str_of k))
    ∧ (lookupA uid (oauth_callback req env st).1.db.users).map UserRec.last_dispensed_at
        = some (some env.now)
    ∧ (oauth_callback req env st).2.notes
        = (linkOrRecognize uid env.now st.db).notes ++ ["Discord Linked"] ++
          (if deliveryFailed env then ["DM Delivery Failed"] else []) ++ ["Key Dispensed"]
    ∧ (oauth_callback req env st).2.result = .redirect "https://skyspoofer.com" := by
  rw [oauth_callback_found req env st tok uid hrl hc hs htok hfound,
      afterFound_ok tok uid env st.db email hok]
  have hfind2 : (dbAfterEmail tok uid email env.now st.db).pool.find? startsKey = some k :=
    hfind
  rw [dispense_some _ _ _ k hfind2]
  obtain ⟨r0, hr0⟩ : ∃ r0, lookupA uid (linkOrRecognize uid env.now st.db).db.users = some r0 := by
    cases hu : lookupA uid st.db.users with
    | none =>
      rw [linkOrRecognize_fresh uid env.now st.db hu]
      exact ⟨_, lookupA_setA_self uid _ st.db.users⟩
    | some r =>
      rw [linkOrRecognize_dup uid env.now st.db r hu]
      exact ⟨r, hu⟩
  refine ⟨rfl, ?_, ?_, ?_, rfl⟩
  · show (lookupA uid (updateA uid _ (dbAfterEmail tok uid email env.now st.db).users)).map _ = _
    rw [lookupA_updateA_self, dbAfterEmail]
    simp only
    rw [lookupA_updateA_self, hr0]
    rfl
  · show (lookupA uid (updateA uid _ (dbAfterEmail tok uid email env.now st.db).users)).map _ = _
    rw [lookupA_updateA_self, dbAfterEmail]
    simp only
    rw [lookupA_updateA_self, hr0]
    rfl
  · simp [List.append_assoc]

/-- C10: when the dispensed pool entry's store key is `"key:" ++ s`, the
string recorded on the account is `s` truncated at the first occurrence of
`"key:"` inside `s`; it equals `s` precisely when `s` does not contain
`"key:"`, while the full entry is removed from the pool either way. -/
theorem c10_key_truncation (req : Req) (env : Env) (st : ServerState)
    (tok uid email s : String)
    (hrl : (record_ip env.now (windowOf st.ipRequests req.ip)).exceeded = false)
    (hc : missingParam req.code = false)
    (hs : missingParam req.state = false)
    (htok : req.state = some tok)
    (hfound : lookupA tok st.db.states = some uid)
    (hok : exchange env = .ok email)
    (hfind : st.db.pool.find? startsKey = some ("key:" ++ s)) :
    (lookupA uid (oauth_callback req env st).1.db.users).map UserRec.dispensed_key
        = some (some (String.mk (beforeSep s.data)))
    ∧ (oauth_callback req env st).1.db.pool
        = st.db.pool.filter (fun x => !(x == "key:" ++ s))
    ∧ (String.mk (beforeSep s.data) = s ↔ containsSep s.data = false) := by
  have h := success_dispense req env st tok uid email ("key:" ++ s)
    hrl hc hs htok hfound hok hfind
  have hk := h.2.1
  rw [key_str_of_sep_append s] at hk
  exact ⟨hk, h.1, mk_beforeSep_eq_iff s⟩

/-- C10 witness: pool key `"key:Akey:B"` — the recorded key string is `"A"`
(the suffix truncated at its embedded `"key:"`), not the full suffix, and
the whole entry leaves the pool. -/
theorem c10_key_truncation_witness :
    (lookupA "u1" (oauth_callback req1 envOK stNested).1.db.users).map UserRec.dispensed_key
        = some (some (String.mk (beforeSep "Akey:B".data)))
    ∧ (oauth_callback req1 envOK stNested).1.db.pool
        = stNested.db.pool.filter (fun x => !(x == "key:" ++ "Akey:B"))
    ∧ (String.mk (beforeSep "Akey:B".data) = "Akey:B" ↔ containsSep "Akey:B".data = false) := by
  have h := c10_key_truncation req1 envOK stNested "s1" "u1" "e" "Akey:B" (by decide)
    (by decide) (by decide) rfl (by decide) rfl (by decide)
  exact ⟨h.1, h.2.1, h.2.2⟩

/-- C8 counterexample: the message-send call returns a non-success status
(`ok = false`), i.e. the message was not delivered, yet no "DM Delivery
Failed" notification is emitted (the source never checks this call's
status) — while the dispense itself is indeed kept: pool entry removed, key
recorded, "Key Dispensed" emitted, redirect returned. -/
theorem c8_counterexample :
    envSendNotOk.sendResp = Except.ok ⟨false⟩
    ∧ "DM Delivery Failed" ∉ (oauth_callback req1 envSendNotOk stOne).2.notes
    ∧ "Key Dispensed" ∈ (oauth_callback req1 envSendNotOk stOne).2.notes
    ∧ (oauth_callback req1 envSendNotOk stOne).1.db.pool = []
    ∧ (lookupA "u1" (oauth_callback req1 envSendNotOk stOne).1.db.users).map
        UserRec.dispensed_key = some (some "A")
    ∧ (oauth_callback req1 envSendNotOk stOne).2.result
        = .redirect "https://skyspoofer.com" :=
  ⟨rfl, by decide, by decide, by decide, by decide, by decide⟩

/-- C8 amended: after a dispense, a delivery failure that raises — a
transport error in either call, or a non-success status of the DM-open call
(the only one guarded by `raise_for_status`) — is reported by exactly one
"DM Delivery Failed" notification and does not roll anything back: the pool
entry stays removed, the key and timestamp stay on the account, exactly one
"Key Dispensed" notification is still emitted and the redirect is still
returned.  A non-success status of the message-send call raises nothing and
is not reported (see the counterexample). -/
theorem c8_amended_delivery_isolated (req : Req) (env : Env) (st : ServerState)
    (tok uid email k : String)
    (hrl : (record_ip env.now (windowOf st.ipRequests req.ip)).exceeded = false)
    (hc : missingParam req.code = false)
    (hs : missingParam req.state = false)
    (htok : req.state = some tok)
    (hfound : lookupA tok st.db.states = some uid)
    (hok : exchange env = .ok email)
    (hfind : st.db.pool.find? startsKey = some k)
    (hdel : deliveryFailed env = true) :
    (oauth_callback req env st).2.notes.count "DM Delivery Failed" = 1
    ∧ (oauth_callback req env st).2.notes.count "Key Dispensed" = 1
    ∧ (oauth_callback req env st).1.db.pool = st.db.pool.filter (fun x => !(x == k))
    ∧ (lookupA uid (oauth_callback req env st).1.db.users).map UserRec.dispensed_key
        = some (some (key_str_of k))
    ∧ (lookupA uid (oauth_callback req env st).1.db.users).map UserRec.last_dispensed_at
        = some (some env.now)
    ∧ (oauth_callback req env st).2.result = .redirect "https://skyspoofer.com" := by
  have h := success_dispense req env st tok uid email k hrl hc hs htok hfound hok hfind
  refine ⟨?_, ?_, h.1, h.2.1, h.2.2.1, h.2.2.2.2⟩
  · rw [h.2.2.2.1, hdel]
    cases hu : lookupA uid st.db.users with
    | none =>
      rw [linkOrRecognize_fresh uid env.now st.db hu]
      simp [List.count_cons]
    | some r =>
      rw [linkOrRecognize_dup uid env.now st.db r hu]
      simp [List.count_cons]
  · rw [h.2.2.2.1, hdel]
    cases hu : lookupA uid st.db.users with
    | none =>
      rw [linkOrRecognize_fresh uid env.now st.db hu]
      simp [List.count_cons]
    | some r =>
      rw [linkOrRecognize_dup uid env.now st.db r hu]
      simp [List.count_cons]

/-- C8 amended witness: a DM-open transport error on a dispensing link:
both notifications present once each, key recorded, pool emptied, redirect
returned. -/
theorem c8_amended_delivery_isolated_witness :
    (oauth_callback req1 envDmErr stOne).2.notes.count "DM Delivery Failed" = 1
    ∧ (oauth_callback req1 envDmErr stOne).2.notes.count "Key Dispensed" = 1
    ∧ (oauth_callback req1 envDmErr stOne).2.result = .redirect "https://skyspoofer.com" := by
  have h := c8_amended_delivery_isolated req1 envDmErr stOne "s1" "u1" "e" "key:A"
    (by decide) (by decide) (by decide) rfl (by decide) rfl (by decide) (by decide)
  exact ⟨h.1, h.2.1, h.2.2.2.2.2⟩

/-- C1 counterexample: two pending states for the same identity and a
two-key pool; the first callback dispenses `"A"` to the account and the
second — a re-link by the already-linked identity — dispenses `"B"`,
overwriting `dispensed_key`: the account received a second key through the
callback path and the pool lost both items to one account. -/
theorem c1_counterexample :
    (lookupA "u1" (runCallbacks stTwo [(req1, envOK)]).db.users).map UserRec.dispensed_key
        = some (some "A")
    ∧ (lookupA "u1" (runCallbacks stTwo [(req1, envOK), (req2, envOK)]).db.users).map
        UserRec.dispensed_key = some (some "B")
    ∧ (runCallbacks stTwo [(req1, envOK), (req2, envOK)]).db.pool = [] :=
  ⟨by decide, by decide, by decide⟩

/-- C1 amended: within one callback execution at most one pool item is
dispensed (at most one pool deletion in the trace, and the pool either is
untouched or loses exactly the first matching entry); but a re-link by an
already-linked identity runs the dispense step again, so across a sequence
of callbacks an account can receive a further key, `dispensed_key` being
overwritten — the record holds at most one key value at a time only because
the field is a single slot, not because a second dispense is prevented. -/
theorem c1_amended_single_dispense_per_callback (req : Req) (env : Env) (st : ServerState) :
    (oauth_callback req env st).2.events.countP isDeletePool ≤ 1
    ∧ ((oauth_callback req env st).1.db.pool = st.db.pool
       ∨ ∃ k, st.db.pool.find? startsKey = some k
           ∧ (oauth_callback req env st).1.db.pool
               = st.db.pool.filter (fun x => !(x == k))) := by
  by_cases hrl : (record_ip env.now (windowOf st.ipRequests req.ip)).exceeded = true
  · rw [oauth_callback_limited req env st hrl]
    exact ⟨by simp, Or.inl rfl⟩
  · rw [Bool.not_eq_true] at hrl
    by_cases hmp : (missingParam req.code || missingParam req.state) = true
    · rw [oauth_callback_missing req env st hrl hmp]
      exact ⟨by simp, Or.inl rfl⟩
    · rw [Bool.not_eq_true, Bool.or_eq_false_iff] at hmp
      obtain ⟨hc, hs⟩ := hmp
      have htok := missingParam_false_eq req.state hs
      cases hlook : lookupA (req.state.getD "") st.db.states with
      | none =>
        rw [oauth_callback_nostate req env st _ hrl hc hs htok hlook]
        exact ⟨by simp [isDeletePool], Or.inl rfl⟩
      | some uid =>
        rw [oauth_callback_found req env st _ uid hrl hc hs htok hlook]
        cases hex : exchange env with
        | error e =>
          rw [afterFound_error _ uid env st.db e hex]
          refine ⟨?_, Or.inl rfl⟩
          cases hu : lookupA uid st.db.users with
          | none =>
            rw [linkOrRecognize_fresh uid env.now st.db hu]
            simp [isDeletePool, List.countP_cons, List.countP_append]
          | some r =>
            rw [linkOrRecognize_dup uid env.now st.db r hu]
            simp [isDeletePool, List.countP_cons, List.countP_append]
        | ok email =>
          rw [afterFound_ok _ uid env st.db email hex]
          cases hfind : (dbAfterEmail (req.state.getD "") uid email env.now st.db).pool.find?
              startsKey with
          | none =>
            rw [dispense_none _ _ _ hfind]
            refine ⟨?_, Or.inl rfl⟩
            cases hu : lookupA uid st.db.users with
            | none =>
              rw [linkOrRecognize_fresh uid env.now st.db hu]
              simp [isDeletePool, List.countP_cons, List.countP_append]
            | some r =>
              rw [linkOrRecognize_dup uid env.now st.db r hu]
              simp [isDeletePool, List.countP_cons, List.countP_append]
          | some k =>
            rw [dispense_some _ _ _ k hfind]
            refine ⟨?_, Or.inr ⟨k, hfind, rfl⟩⟩
            cases hu : lookupA uid st.db.users with
            | none =>
              rw [linkOrRecognize_fresh uid env.now st.db hu]
              simp [isDeletePool, List.countP_cons, List.countP_append]
            | some r =>
              rw [linkOrRecognize_dup uid env.now st.db r hu]
              simp [isDeletePool, List.countP_cons, List.countP_append]

/-- C2 counterexample: on a first-time link the trace opens with the state
membership test and read, then the account lookup and the account-record
creation write, and only then the state deletion — the state entry is not
deleted before the account record is looked up or created. -/
theorem c2_counterexample :
    (oauth_callback req1 envOK stOne).2.events.take 5
      = [.containsState "s1", .readState "s1", .containsUser "u1", .writeUser "u1",
         .deleteState "s1"] := by
  decide

/-- C2 amended: in every callback execution that finds the state token, the
state entry is deleted exactly once, after the account link-or-recognize
step (the user lookup and, for a fresh identity, the creation write) and
before everything that follows — no store event after the deletion touches
the state keyspace — and the token is gone from the store afterwards, so it
cannot be found by a later sequential request. -/
theorem c2_amended_state_consumed_once (req : Req) (env : Env) (st : ServerState)
    (tok uid : String)
    (hrl : (record_ip env.now (windowOf st.ipRequests req.ip)).exceeded = false)
    (hc : missingParam req.code = false)
    (hs : missingParam req.state = false)
    (htok : req.state = some tok)
    (hfound : lookupA tok st.db.states = some uid) :
    ∃ mid rest,
      (oauth_callback req env st).2.events
        = [.containsState tok, .readState tok, .containsUser uid] ++ mid ++
          [.deleteState tok] ++ rest
      ∧ (mid = [] ∨ mid = [.writeUser uid])
      ∧ (∀ e ∈ rest, isStateEvent e = false)
      ∧ lookupA tok (oauth_callback req env st).1.db.states = none := by
  rw [oauth_callback_found req env st tok uid hrl hc hs htok hfound]
  cases hex : exchange env with
  | error e =>
    rw [afterFound_error tok uid env st.db e hex]
    cases hu : lookupA uid st.db.users with
    | none =>
      rw [linkOrRecognize_fresh uid env.now st.db hu]
      exact ⟨[.writeUser uid], [], by simp, Or.inr rfl, by simp,
        lookupA_eraseA_self tok st.db.states⟩
    | some r =>
      rw [linkOrRecognize_dup uid env.now st.db r hu]
      exact ⟨[], [], by simp, Or.inl rfl, by simp,
        lookupA_eraseA_self tok st.db.states⟩
  | ok email =>
    rw [afterFound_ok tok uid env st.db email hex]
    cases hfind : (dbAfterEmail tok uid email env.now st.db).pool.find? startsKey with
    | none =>
      rw [dispense_none _ _ _ hfind]
      cases hu : lookupA uid st.db.users with
      | none =>
        rw [linkOrRecognize_fresh uid env.now st.db hu]
        refine ⟨[.writeUser uid], [.readUser uid, .writeUser uid], by simp, Or.inr rfl,
          ?_, lookupA_eraseA_self tok st.db.states⟩
        intro e he
        simp only [List.mem_cons, List.not_mem_nil, or_false] at he
        rcases he with rfl | rfl <;> rfl
      | some r =>
        rw [linkOrRecognize_dup uid env.now st.db r hu]
        refine ⟨[], [.readUser uid, .writeUser uid], by simp, Or.inl rfl,
          ?_, lookupA_eraseA_self tok st.db.states⟩
        intro e he
        simp only [List.mem_cons, List.not_mem_nil, or_false] at he
        rcases he with rfl | rfl <;> rfl
    | some k =>
      rw [dispense_some _ _ _ k hfind]
      cases hu : lookupA uid st.db.users with
      | none =>
        rw [linkOrRecognize_fresh uid env.now st.db hu]
        refine ⟨[.writeUser uid],
          [.readUser uid, .writeUser uid, .deletePool k, .readUser uid, .writeUser uid],
          by simp, Or.inr rfl, ?_, lookupA_eraseA_self tok st.db.states⟩
        intro e he
        simp only [List.mem_cons, List.not_mem_nil, or_false] at he
        rcases he with rfl | rfl | rfl | rfl | rfl <;> rfl
      | some r =>
        rw [linkOrRecognize_dup uid env.now st.db r hu]
        refine ⟨[],
          [.readUser uid, .writeUser uid, .deletePool k, .readUser uid, .writeUser uid],
          by simp, Or.inl rfl, ?_, lookupA_eraseA_self tok st.db.states⟩
        intro e he
        simp only [List.mem_cons, List.not_mem_nil, or_false] at he
        rcases he with rfl | rfl | rfl | rfl | rfl <;> rfl

/-- C2 amended witness: the fresh-link trace of the concrete scenario,
with its state entry consumed. -/
theorem c2_amended_state_consumed_once_witness :
    ∃ mid rest,
      (oauth_callback req1 envOK stOne).2.events
        = [.containsState "s1", .readState "s1", .containsUser "u1"] ++ mid ++
          [.deleteState "s1"] ++ rest
      ∧ (mid = [] ∨ mid = [.writeUser "u1"])
      ∧ (∀ e ∈ rest, isStateEvent e = false)
      ∧ lookupA "s1" (oauth_callback req1 envOK stOne).1.db.states = none :=
  c2_amended_state_consumed_once req1 envOK stOne "s1" "u1" (by decide) (by decide)
    (by decide) rfl (by decide)

theorem lookupA_updateA_preserve (k id : String) (f : UserRec → UserRec)
    (hf : ∀ x, (f x).first_linked_at = x.first_linked_at)
    (l : List (String × UserRec)) (r : UserRec) (h : lookupA id l = some r) :
    ∃ r2, lookupA id (updateA k f l) = some r2
      ∧ r2.first_linked_at = r.first_linked_at := by
  by_cases hik : id = k
  · subst hik
    rw [lookupA_updateA_self, h]
    exact ⟨f r, rfl, hf r⟩
  · rw [lookupA_updateA_ne id k f l hik]
    exact ⟨r, h, rfl⟩

/-- One callback, whatever its branch, keeps every existing account's
`first_linked_at` (and keeps the account present). -/
theorem callback_preserves_first_linked (req : Req) (env : Env) (st : ServerState)
    (id : String) (r : UserRec) (h : lookupA id st.db.users = some r) :
    ∃ r2, lookupA id (oauth_callback req env st).1.db.users = some r2
      ∧ r2.first_linked_at = r.first_linked_at := by
  by_cases hrl : (record_ip env.now (windowOf st.ipRequests req.ip)).exceeded = true
  · rw [oauth_callback_limited req env st hrl]
    exact ⟨r, h, rfl⟩
  · rw [Bool.not_eq_true] at hrl
    by_cases hmp : (missingParam req.code || missingParam req.state) = true
    · rw [oauth_callback_missing req env st hrl hmp]
      exact ⟨r, h, rfl⟩
    · rw [Bool.not_eq_true, Bool.or_eq_false_iff] at hmp
      obtain ⟨hc, hs⟩ := hmp
      have htok := missingParam_false_eq req.state hs
      cases hlook : lookupA (req.state.getD "") st.db.states with
      | none =>
        rw [oauth_callback_nostate req env st _ hrl hc hs htok hlook]
        exact ⟨r, h, rfl⟩
      | some uid =>
        rw [oauth_callback_found req env st _ uid hrl hc hs htok hlook]
        have hlr : ∃ r1, lookupA id (linkOrRecognize uid env.now st.db).db.users = some r1
            ∧ r1.first_linked_at = r.first_linked_at := by
          cases hu : lookupA uid st.db.users with
          | none =>
            rw [linkOrRecognize_fresh uid env.now st.db hu]
            have hne : id ≠ uid := by
              intro hid
              subst hid
              rw [h] at hu
              cases hu
            rw [lookupA_setA_ne id uid _ st.db.users hne]
            exact ⟨r, h, rfl⟩
          | some r0 =>
            rw [linkOrRecognize_dup uid env.now st.db r0 hu]
            exact ⟨r, h, rfl⟩
        obtain ⟨r1, hr1, hfl1⟩ := hlr
        cases hex : exchange env with
        | error e =>
          rw [afterFound_error _ uid env st.db e hex]
          exact ⟨r1, hr1, hfl1⟩
        | ok email =>
          rw [afterFound_ok _ uid env st.db email hex]
          obtain ⟨r2, hr2, hfl2⟩ := lookupA_updateA_preserve uid id
            (fun rr => { rr with email := some email }) (fun x => rfl) _ r1 hr1
          cases hfind : (dbAfterEmail (req.state.getD "") uid email env.now st.db).pool.find?
              startsKey with
          | none =>
            rw [dispense_none _ _ _ hfind]
            exact ⟨r2, hr2, by rw [hfl2, hfl1]⟩
          | some k =>
            rw [dispense_some _ _ _ k hfind]
            obtain ⟨r3, hr3, hfl3⟩ := lookupA_updateA_preserve uid id
              (fun rr => { rr with dispensed_key := some (key_str_of k),
                                   last_dispensed_at := some env.now })
              (fun x => rfl) _ r2 hr2
            exact ⟨r3, hr3, by rw [hfl3, hfl2, hfl1]⟩

theorem runCallbacks_preserves_first_linked (l : List (Req × Env)) :
    ∀ (st : ServerState) (id : String) (r : UserRec),
      lookupA id st.db.users = some r →
      ∃ r2, lookupA id (runCallbacks st l).db.users = some r2
        ∧ r2.first_linked_at = r.first_linked_at := by
  induction l with
  | nil => exact fun st id r h => ⟨r, h, rfl⟩
  | cons p rest ih =>
    intro st id r h
    obtain ⟨r1, hr1, hfl1⟩ := callback_preserves_first_linked p.1 p.2 st id r h
    obtain ⟨r2, hr2, hfl2⟩ := ih _ id r1 hr1
    refine ⟨r2, ?_, by rw [hfl2, hfl1]⟩
    simpa [runCallbacks] using hr2

/-- C4: `first_linked_at` is written once, at account creation, with the
current time, and no later operation changes it: across any sequence of
further callbacks — re-link attempts, email updates, key-dispense
annotations — the account keeps its original `first_linked_at`. -/
theorem c4_first_linked_at_immutable (st : ServerState) (l : List (Req × Env))
    (id : String) (r : UserRec) (h : lookupA id st.db.users = some r) :
    (∃ r2, lookupA id (runCallbacks st l).db.users = some r2
       ∧ r2.first_linked_at = r.first_linked_at)
    ∧ (∀ uid now db, lookupA uid db.users = none →
        lookupA uid (linkOrRecognize uid now db).db.users
          = some ⟨uid, none, now, none, none⟩) := by
  refine ⟨runCallbacks_preserves_first_linked l st id r h, ?_⟩
  intro uid now db hnone
  rw [linkOrRecognize_fresh uid now db hnone]
  simp [lookupA_setA_self]

/-- C4 witness: an account first linked at time 42 goes through a full
re-link callback (duplicate audit, email update) and keeps
`first_linked_at = 42`. -/
theorem c4_first_linked_at_immutable_witness :
    ∃ r2, lookupA "u1" (runCallbacks stLinked [(req1, envOK)]).db.users = some r2
      ∧ r2.first_linked_at
          = (⟨"u1", some "m", 42, none, none⟩ : UserRec).first_linked_at :=
  (c4_first_linked_at_immutable stLinked [(req1, envOK)] "u1"
    ⟨"u1", some "m", 42, none, none⟩ (by decide)).1
